import Mathlib

/-!
Shallow embedding of the citrailmu media pipeline
(`src/citrailmu/__init__.py`, class `CitraIlmu`).

External collaborators (moviepy's `AudioFileClip`, pytubefix's `YouTube`,
`requests`, `google.generativeai`, `markdown_pdf`) are modelled as oracle
environments supplying each external call's outcome; `Except String A` models
a call that may raise (`.error` carries the exception message).  Local
storage is an association list from paths to byte contents.  Python strings
are modelled through their character lists; the `re` module's `\w` class is
modelled on its ASCII fragment `[A-Za-z0-9_]` (Python's default Unicode
`\w` additionally keeps non-ASCII word characters, which this development
does not exercise).  Python `None`-or-value results are `Option`.
-/

namespace Citrailmu

/-! ### Python string primitives -/

/-- ASCII fragment of Python regex class `\w`, i.e. `[A-Za-z0-9_]`. -/
def isWordCharA (c : Char) : Bool := c.isAlphanum || c = '_'

/-- The character class `[A-Za-z0-9_-]` named by the spec's invariant. -/
def allowedChar (c : Char) : Bool := isWordCharA c || c = '-'

/-- One character of `re.sub(r'[^\w\-]', '_', s)`: the pattern is a single
negated character class, so the substitution is a per-character map. -/
def sanChar (c : Char) : Char := if isWordCharA c || c = '-' then c else '_'

/-- Model of `re.sub(r'[^\w\-]', '_', s)` (line 61 / line 193 of the source). -/
def sanitize (s : String) : String := String.mk (s.data.map sanChar)

/-- Python `str.lower()` on the ASCII fragment. -/
def pyLower (s : String) : String := String.mk (s.data.map Char.toLower)

/-- Model of `os.path.basename`: the part after the last `/`. -/
def basenameL (l : List Char) : List Char :=
  (l.reverse.takeWhile (fun c => c ≠ '/')).reverse

/-- The stem `os.path.splitext(b)[0]` of a basename `b`: cut at the last
dot, unless every character before that dot is itself a dot (CPython's
`genericpath._splitext` skips the leading dots of the basename). -/
def splitext_stem (l : List Char) : List Char :=
  match l.reverse.findIdx? (fun c => c = '.') with
  | none => l
  | some k =>
    let i := l.length - 1 - k
    if (l.take i).any (fun c => c ≠ '.') then l.take i else l

/-- Zero-padded two-digit rendering, Python's `f"{n:02d}"` for `n ≥ 0`. -/
def pad2 (n : Nat) : String := if n < 10 then "0" ++ toString n else toString n

/-- Model of `__format_duration` (lines 49-54): seconds to `HH:MM:SS`. -/
def format_duration (seconds : Nat) : String :=
  pad2 (seconds / 3600) ++ ":" ++ pad2 ((seconds % 3600) / 60) ++ ":" ++ pad2 (seconds % 60)

/-! ### Local storage model -/

/-- Local storage: an association list path ↦ byte content (most recent
write first). -/
abbrev FS := List (String × List Nat)

/-- Content of `p`, if the file exists. -/
def fsLookup (fs : FS) (p : String) : Option (List Nat) :=
  match fs.find? (fun e => e.1 == p) with
  | some e => some e.2
  | none => none

/-- Create or overwrite the file at `p` (`open(p, 'wb')` / a download). -/
def fsWrite (fs : FS) (p : String) (content : List Nat) : FS := (p, content) :: fs

/-- Model of `os.unlink(p)`. -/
def fsUnlink (fs : FS) (p : String) : FS := fs.filter (fun e => e.1 != p)

/-- Model of `os.path.exists(p)` / `os.path.isfile(p)` (the model stores only
regular files). -/
def fsExists (fs : FS) (p : String) : Bool := (fsLookup fs p).isSome

/-- Model of `f.write(chunk)` on a file opened earlier: extend the current content. -/
def fsAppend (fs : FS) (p : String) (chunk : List Nat) : FS :=
  fsWrite fs p ((fsLookup fs p).getD [] ++ chunk)

/-! ### URL classification (`__is_youtube_url`, `__is_url`) -/

/-- Exact prefix test over character lists. -/
def listStartsWith : List Char → List Char → Bool
  | [], _ => true
  | _ :: _, [] => false
  | p :: ps, c :: cs => p == c && listStartsWith ps cs

/-- The optional group `(https?://)?` of the YouTube pattern. -/
def stripScheme (l : List Char) : List Char :=
  if listStartsWith "https://".data l then l.drop 8
  else if listStartsWith "http://".data l then l.drop 7
  else l

/-- The optional group `(www\.)?`. -/
def stripWww (l : List Char) : List Char :=
  if listStartsWith "www.".data l then l.drop 4 else l

/-- The tail `(com|be)/` of the YouTube pattern. -/
def tldSlash (l : List Char) : Bool :=
  listStartsWith "com/".data l || listStartsWith "be/".data l

/-- The alternation `(youtube|youtu|youtube-nocookie)\.` followed by
`(com|be)/`; a regex alternation matches iff some alternative lets the rest
of the pattern match, so ordered backtracking collapses to a disjunction. -/
def hostMatch (l : List Char) : Bool :=
  (listStartsWith "youtube.".data l && tldSlash (l.drop 8)) ||
  (listStartsWith "youtu.".data l && tldSlash (l.drop 6)) ||
  (listStartsWith "youtube-nocookie.".data l && tldSlash (l.drop 17))

/-- Model of `__is_youtube_url` (lines 39-42):
`re.match(r'(https?://)?(www\.)?(youtube|youtu|youtube-nocookie)\.(com|be)/', url)`.
`re.match` anchors at the start only; the pattern is compiled without
`re.IGNORECASE`, hence matching is case-sensitive.  None of the literal
alternatives of a later group is a prefix of an optional earlier group's
text, so taking each optional group greedily is equivalent to the
backtracking semantics. -/
def is_youtube_url (s : String) : Bool := hostMatch (stripWww (stripScheme s.data))

/-- Case-insensitive variant of the same pattern, as the spec sentence
behind the claim describes classification; the pattern's literals are all
lowercase, so case-insensitive matching coincides with matching the
lowercased input. -/
def is_youtube_url_ci (s : String) : Bool :=
  is_youtube_url (String.mk (s.data.map Char.toLower))

/-- Hex digit class `[\da-fA-F]`. -/
def isHexDigit (c : Char) : Bool :=
  c.isDigit || ('a' ≤ c && c ≤ 'f') || ('A' ≤ c && c ≤ 'F')

/-- The single-character alternative `[-\w.]` of the generic URL pattern
(ASCII fragment of `\w`, as above). -/
def isUrlChar (c : Char) : Bool := isWordCharA c || c = '-' || c = '.'

/-- The mandatory scheme `https?://` of `__is_url`. -/
def requireScheme (l : List Char) : Option (List Char) :=
  if listStartsWith "https://".data l then some (l.drop 8)
  else if listStartsWith "http://".data l then some (l.drop 7)
  else none

/-- One repetition of `(?:[-\w.]|(?:%[\da-fA-F]{2}))`; `bool(re.match(...))`
with a `+` repetition only needs the first repetition to match. -/
def urlBody : List Char → Bool
  | '%' :: a :: b :: _ => isHexDigit a && isHexDigit b
  | c :: _ => isUrlChar c
  | [] => false

/-- Model of `__is_url` (lines 44-47):
`re.match(r'https?://(?:[-\w.]|(?:%[\da-fA-F]{2}))+', url)`. -/
def is_url (s : String) : Bool :=
  match requireScheme s.data with
  | some rest => urlBody rest
  | none => false

/-- The four outcomes of the `__media_processor` dispatch chain. -/
inductive InputClass where
  | localFile
  | streamingUrl
  | genericUrl
  | invalid
deriving DecidableEq, Repr

/-- The dispatch conditions of `__media_processor` (lines 89-100), in
source order: existing file, then YouTube pattern, then generic URL. -/
def classify (fs : FS) (input : String) : InputClass :=
  if fsExists fs input then .localFile
  else if is_youtube_url input then .streamingUrl
  else if is_url input then .genericUrl
  else .invalid

/-! ### Markdown cleaning (`__clean_markdown`, lines 150-154) -/

/-- Model of `[a-zA-Z]` (Lean's `Char.isAlpha` is exactly the ASCII letters). -/
def isAsciiAlpha (c : Char) : Bool := c.isAlpha

/-- Try the pattern ```` ```[a-zA-Z]* ```` followed by a newline at the head
of the list; on a match return the remainder.  The greedy letter run is
deterministic: shortening it would put a letter, not a newline, next. -/
def fenceLangMatch : List Char → Option (List Char)
  | '\x60' :: '\x60' :: '\x60' :: rest =>
    match rest.dropWhile isAsciiAlpha with
    | '\n' :: tail => some tail
    | _ => none
  | _ => none

/-- Try the pattern ```` ``` ```` followed by an optional newline at the
head of the list; on a match return the remainder. -/
def fenceMatch : List Char → Option (List Char)
  | '\x60' :: '\x60' :: '\x60' :: rest =>
    match rest with
    | '\n' :: tail => some tail
    | _ => some rest
  | _ => none

/-- Model of `re.sub` scan for the first pattern: leftmost match, empty replacement,
resume after the match.  Structural recursion on explicit fuel; a match
consumes at least four characters, so fuel equal to the length suffices. -/
def subFLAux : Nat → List Char → List Char
  | 0, l => l
  | _ + 1, [] => []
  | fuel + 1, c :: rest =>
    match fenceLangMatch (c :: rest) with
    | some tail => subFLAux fuel tail
    | none => c :: subFLAux fuel rest

/-- Model of `re.sub(r'```[a-zA-Z]*\n', '', ·)` over character lists. -/
def subFL (l : List Char) : List Char := subFLAux l.length l

/-- Model of `re.sub` scan for the second pattern (a match consumes at least three
characters). -/
def subFAux : Nat → List Char → List Char
  | 0, l => l
  | _ + 1, [] => []
  | fuel + 1, c :: rest =>
    match fenceMatch (c :: rest) with
    | some tail => subFAux fuel tail
    | none => c :: subFAux fuel rest

/-- Model of `re.sub(r'```\n?', '', ·)` over character lists. -/
def subF (l : List Char) : List Char := subFAux l.length l

/-- The ASCII whitespace stripped by Python `str.strip()`. -/
def isPySpace (c : Char) : Bool :=
  c = ' ' || c = '\t' || c = '\n' || c = '\r' || c = '\x0b' || c = '\x0c'

/-- Python `str.strip()` over character lists. -/
def pyStripL (l : List Char) : List Char :=
  ((l.dropWhile isPySpace).reverse.dropWhile isPySpace).reverse

/-- Python `str.strip()`. -/
def pyStrip (s : String) : String := String.mk (pyStripL s.data)

/-- Model of `__clean_markdown` (lines 150-154): remove opening fences
```` ```lang\n ````, then remaining ```` ``` ```` markers (with a trailing
newline when present), then strip surrounding whitespace. -/
def clean_markdown (s : String) : String :=
  String.mk (pyStripL (subF (subFL s.data)))

/-! ### Chunked download (`iter_content(chunk_size=8192)`) -/

/-- Split a byte list into consecutive chunks of 8192 bytes (the last chunk
may be shorter).  Structural recursion on fuel; every step consumes at
least one byte, so fuel equal to the length suffices. -/
def chunksAux : Nat → List Nat → List (List Nat)
  | _, [] => []
  | 0, l => [l]
  | fuel + 1, l => l.take 8192 :: chunksAux fuel (l.drop 8192)

/-- The chunk sequence delivered by `response.iter_content(chunk_size=8192)`
for a response body. -/
def chunks (content : List Nat) : List (List Nat) := chunksAux content.length content

/-! ### Audio compression (`__compress_audio`, lines 56-84) -/

/-- The system temporary directory (`tempfile.gettempdir()`). -/
def tmpdir : String := "/tmp"

/-- Outcomes of the three external moviepy calls inside `__compress_audio`:
`AudioFileClip(filepath)`, `audio.audio_fadeout(0.1)` and
`audio.write_audiofile(...)`; `.error` models a raised exception. -/
structure CompressEnv where
  openClip : Except String Unit
  fadeout : Except String Unit
  writeAudio : Except String Unit

/-- Result of `__compress_audio`: the returned value, the storage state,
whether the decoder handle opened by `AudioFileClip` is still open when the
function returns, and the log lines emitted. -/
structure CompOut where
  result : Option String
  fs : FS
  handleOpen : Bool
  logs : List String

/-- The `finally` clause `if audio: audio.close()`: when the `audio`
variable is bound to a clip, closing it releases the underlying decoder
handle (the clip returned by `audio_fadeout` wraps the same decoder). -/
def closeIfBound (audioBound handleOpen : Bool) : Bool :=
  if audioBound then false else handleOpen

/-- Model of `f"[{task_id}] Audio compression failed: {e}"`. -/
def compressFailMsg (task_id e : String) : String :=
  "[" ++ task_id ++ "] Audio compression failed: " ++ e

/-- The compressed-output path
`os.path.join(tempfile.gettempdir(), f"{filename}.mp3")` with
`filename = re.sub(r'[^\w\-]', '_', os.path.splitext(os.path.basename(filepath))[0])`. -/
def compressTempPath (filepath : String) : String :=
  tmpdir ++ "/" ++ sanitize (String.mk (splitext_stem (basenameL filepath.data))) ++ ".mp3"

/-- Model of `__compress_audio`: open the clip, fade out, re-encode to
`{sanitized-stem}.mp3`; the `finally` clause closes the clip bound to
`audio` on every exit path, and the outer `except` logs any failure tagged
with the task id and returns `None`. -/
def compress_audio (env : CompressEnv) (fs : FS) (filepath task_id : String) : CompOut :=
  let l0 := ["[" ++ task_id ++ "] Compressing audio: " ++ filepath]
  let temp_path := compressTempPath filepath
  match env.openClip with
  | .error e =>
    -- `audio` is still `None`: the `finally` clause closes nothing, and no
    -- handle was opened.
    { result := none, fs := fs, handleOpen := closeIfBound false false,
      logs := l0 ++ [compressFailMsg task_id e] }
  | .ok _ =>
    match env.fadeout with
    | .error e =>
      { result := none, fs := fs, handleOpen := closeIfBound true true,
        logs := l0 ++ [compressFailMsg task_id e] }
    | .ok _ =>
      match env.writeAudio with
      | .error e =>
        { result := none, fs := fs, handleOpen := closeIfBound true true,
          logs := l0 ++ [compressFailMsg task_id e] }
      | .ok _ =>
        { result := some temp_path, fs := fsWrite fs temp_path [],
          handleOpen := closeIfBound true true, logs := l0 }

/-! ### Source-specific acquisition (lines 106-148) -/

/-- Result of an acquisition branch: returned value, storage state, logs. -/
structure AcqOut where
  result : Option String
  fs : FS
  logs : List String

/-- Outcomes of the pytubefix calls in `__process_youtube`: resolving the
video metadata (yielding `yt.title`) and downloading the audio-only
stream. -/
structure YtEnv where
  meta : Except String String
  download : Except String Unit
  compress : CompressEnv

/-- The download target `os.path.join(tempfile.gettempdir(), f"{task_id}_{yt.title}.m4a")`;
the title is embedded verbatim. -/
def ytDownloadPath (task_id title : String) : String :=
  tmpdir ++ "/" ++ task_id ++ "_" ++ title ++ ".m4a"

/-- Model of `__process_youtube` (lines 106-126): resolve metadata, download the
audio-only stream to the task-scoped `.m4a`, compress it, then delete the
downloaded file if it exists; any exception is logged and yields `None`. -/
def process_youtube (env : YtEnv) (fs : FS) (url task_id : String) : AcqOut :=
  let l0 := ["[" ++ task_id ++ "] Processing YouTube URL: " ++ url]
  match env.meta with
  | .error e =>
    { result := none, fs := fs,
      logs := l0 ++ ["[" ++ task_id ++ "] YouTube processing failed: " ++ e] }
  | .ok title =>
    let downloaded := ytDownloadPath task_id title
    match env.download with
    | .error e =>
      { result := none, fs := fs,
        logs := l0 ++ ["[" ++ task_id ++ "] YouTube processing failed: " ++ e] }
    | .ok _ =>
      let c := compress_audio env.compress (fsWrite fs downloaded []) downloaded task_id
      let fs3 := if fsExists c.fs downloaded then fsUnlink c.fs downloaded else c.fs
      { result := c.result, fs := fs3, logs := l0 ++ c.logs }

/-- Outcome of `requests.get(url, stream=True)`: either a raised exception
or a pair of HTTP status code and response body bytes. -/
structure WebEnv where
  getResult : Except String (Nat × List Nat)
  compress : CompressEnv

/-- First component of `url.split('?')`. -/
def beforeQuery (l : List Char) : List Char := l.takeWhile (fun c => c ≠ '?')

/-- The temporary download path of `__process_web_url` (lines 132-133):
`os.path.basename(url.split('?')[0]) or f"download_{int(time.time())}"`,
suffixed with `.mp4`, in the temporary directory. -/
def webTempPath (url : String) (now : Nat) : String :=
  let raw := basenameL (beforeQuery url.data)
  let filename := if raw.isEmpty then "download_" ++ toString now else String.mk raw
  tmpdir ++ "/" ++ filename ++ ".mp4"

/-- The `with open(temp_path, 'wb')` block of lines 135-139: the open
truncates the file to empty; only a 200 response has its body written, in
8192-byte chunks. -/
def downloadToFile (fs : FS) (temp_path : String) (status : Nat) (content : List Nat) : FS :=
  let fs0 := fsWrite fs temp_path []
  if status = 200 then
    (chunks content).foldl (fun a ch => fsAppend a temp_path ch) fs0
  else fs0

/-- Model of `__process_web_url` (lines 128-148): stream-download into the `.mp4`
temporary file, compress, then delete the temporary file if it exists; an
exception from `requests.get` is caught after the file was already created
empty by `open`. -/
def process_web_url (env : WebEnv) (fs : FS) (url task_id : String) (now : Nat) : AcqOut :=
  let l0 := ["[" ++ task_id ++ "] Processing web URL: " ++ url]
  let temp_path := webTempPath url now
  match env.getResult with
  | .error e =>
    { result := none, fs := fsWrite fs temp_path [],
      logs := l0 ++ ["[" ++ task_id ++ "] URL processing failed: " ++ e] }
  | .ok (status, content) =>
    let c := compress_audio env.compress (downloadToFile fs temp_path status content) temp_path task_id
    let fs3 := if fsExists c.fs temp_path then fsUnlink c.fs temp_path else c.fs
    { result := c.result, fs := fs3, logs := l0 ++ c.logs }

/-- Environment of `__media_processor`: the oracle of each branch plus the
clock value read by `int(time.time())`. -/
structure MediaEnv where
  compress : CompressEnv
  yt : YtEnv
  web : WebEnv
  now : Nat

/-- Model of `__media_processor` (lines 86-104): dispatch on the classification
chain; an invalid input is logged and yields `None`.  The branch bodies
catch their own exceptions, so the outer `except` of lines 102-104 is
unreachable in this model. -/
def media_processor (env : MediaEnv) (fs : FS) (input_path task_id : String) : AcqOut :=
  match classify fs input_path with
  | .localFile =>
    let c := compress_audio env.compress fs input_path task_id
    { result := c.result, fs := c.fs, logs := c.logs }
  | .streamingUrl => process_youtube env.yt fs input_path task_id
  | .genericUrl => process_web_url env.web fs input_path task_id env.now
  | .invalid =>
    { result := none, fs := fs,
      logs := ["[" ++ task_id ++ "] Invalid input: not a file path or URL"] }

/-! ### AI stage (`__aigc_processor`, lines 156-188) -/

/-- Outcomes of the external calls of `__aigc_processor`: reading the
duration through `AudioFileClip`, `genai.upload_file` (yielding the
uploaded-file reference rendered into the log line) and
`model.generate_content` (yielding `response.text`). -/
structure AigcEnv where
  duration : Except String Nat
  upload : Except String String
  generate : Except String String

/-- Result of a text-producing stage: returned value and log lines. -/
structure ROut where
  result : Option String
  logs : List String

/-- The `analysis` prompt f-string of line 168. -/
def analysisPrompt (fd target_language : String) : String :=
  "You are an expert audio transcriber and content analyst. Your task is to provide a transcript of the given audio file from 00:00 to " ++ fd ++
  ". You must list down every discussed topic, themes, points and reflections in " ++ target_language ++
  ". You must begin with the most suitable title of the speech with overview of the speech and must end with the conclusion. Do not include any opening or closing remarks."

/-- The `transcript` prompt f-string of line 171. -/
def transcriptPrompt (fd : String) : String :=
  "You are an expert audio transcriber. Your task is to provide a transcript of the given audio file from 00:00 to " ++ fd ++
  ". You must begin with the most suitable title of the speech with overview of the speech. Do not include any opening or closing remarks."

/-- Model of `f"[{task_id}] AI {processing_mode} processing failed: {e}"`. -/
def aigcFailMsg (task_id processing_mode e : String) : String :=
  "[" ++ task_id ++ "] AI " ++ processing_mode ++ " processing failed: " ++ e

/-- Model of `f"[{task_id}] Invalid processing mode: {processing_mode}"`. -/
def invalidModeMsg (task_id processing_mode : String) : String :=
  "[" ++ task_id ++ "] Invalid processing mode: " ++ processing_mode

/-- Model of `__aigc_processor`: read the duration, select the prompt by the
lowercased mode (an unrecognized mode is logged and yields `None` before
any upload), upload, generate, and clean the response Markdown; any raised
exception is logged and yields `None`.  (`genai.configure` only mutates
process-wide external state and is not modelled.) -/
def aigc_processor (env : AigcEnv) (input_path target_language processing_mode task_id : String) : ROut :=
  match env.duration with
  | .error e => { result := none, logs := [aigcFailMsg task_id processing_mode e] }
  | .ok secs =>
    let fd := format_duration secs
    let promptSel : Option String :=
      if pyLower processing_mode = "analysis" then some (analysisPrompt fd target_language)
      else if pyLower processing_mode = "transcript" then some (transcriptPrompt fd)
      else none
    match promptSel with
    | none => { result := none, logs := [invalidModeMsg task_id processing_mode] }
    | some _prompt =>
      match env.upload with
      | .error e => { result := none, logs := [aigcFailMsg task_id processing_mode e] }
      | .ok fileRef =>
        let l1 := ["[" ++ task_id ++ "] Uploading audio: " ++ fileRef,
                   "[" ++ task_id ++ "] Processing AI " ++ processing_mode ++ "..."]
        match env.generate with
        | .error e => { result := none, logs := l1 ++ [aigcFailMsg task_id processing_mode e] }
        | .ok text => { result := some (clean_markdown text), logs := l1 }

/-! ### PDF stage (`__markdown_to_pdf`, lines 190-264) -/

/-- Reading a Python local variable: unassigned (`none`) raises
`UnboundLocalError`. -/
def refVar (v : Option String) : Except String String :=
  match v with
  | some x => .ok x
  | none => .error "local variable referenced before assignment"

/-- Does the Markdown start with a level-1 heading,
`markdown_text.startswith('# ')`. -/
def mdStartsHash (s : String) : Bool :=
  match s.data with
  | '#' :: ' ' :: _ => true
  | _ => false

/-- The output path of lines 193-195: sanitized stem of the original path,
the lowercased mode and the lowercased language with spaces replaced by
underscores, joined by underscores, with a `.pdf` suffix. -/
def pdfPath (original_path target_language processing_mode : String) : String :=
  let filename := sanitize (String.mk (splitext_stem (basenameL original_path.data)))
  let langPart := String.mk ((pyLower target_language).data.map (fun c => if c = ' ' then '_' else c))
  tmpdir ++ "/" ++ filename ++ "_" ++ pyLower processing_mode ++ "_" ++ langPart ++ ".pdf"

/-- Model of `f"[{task_id}] PDF generation failed: {e}"`. -/
def pdfFailMsg (task_id e : String) : String :=
  "[" ++ task_id ++ "] PDF generation failed: " ++ e

/-- Model of `__markdown_to_pdf`: the local `title` is assigned only inside the
`if not markdown_text.startswith('# ')` block (lines 239-246), yet
`pdf.meta["title"] = title` (line 253) reads it unconditionally; reading
it unassigned raises, the exception is caught, and the stage yields
`None`.  `save` is the oracle for the external rendering and save (the CSS
styling passed along is opaque to this model). -/
def markdown_to_pdf (save : Except String Unit)
    (markdown_text original_path target_language processing_mode task_id : String) : ROut :=
  let pdf_path := pdfPath original_path target_language processing_mode
  let l0 := ["[" ++ task_id ++ "] Generating PDF: " ++ pdf_path]
  let title : Option String :=
    if !(mdStartsHash markdown_text) then
      if pyLower processing_mode = "analysis" then
        some ("CitraIlmu Analysis (" ++ target_language ++ ")")
      else if pyLower processing_mode = "transcript" then
        some ("CitraIlmu Transcript (" ++ target_language ++ ")")
      else none
    else none
  let body : Except String String :=
    (if !(mdStartsHash markdown_text) then
       (refVar title).map (fun t => "# " ++ t ++ "\n\n" ++ markdown_text)
     else .ok markdown_text).bind (fun _md =>
      (refVar title).bind (fun _t => save.map (fun _ => pdf_path)))
  match body with
  | .ok p => { result := some p, logs := l0 }
  | .error e => { result := none, logs := l0 ++ [pdfFailMsg task_id e] }

/-! ### Pipeline (`process_media`, lines 277-306) -/

/-- Environment of one `process_media` run.  `f1`, `f2`, `f3` inject an
unexpected exception at the call sites of the three stages (the message it
carries); each stage otherwise catches its own exceptions, and the
top-level `except` of lines 304-306 converts an escaped exception to
`(None, None)`. -/
structure PipeEnv where
  media : MediaEnv
  aigc : AigcEnv
  save : Except String Unit
  f1 : Option String
  f2 : Option String
  f3 : Option String

/-- Result of `process_media`: the returned pair and the log lines. -/
structure PipeOut where
  pair : Option String × Option String
  logs : List String

/-- Model of `f"[{task_id}] Task failed: {e}"`. -/
def taskFailMsg (task_id e : String) : String :=
  "[" ++ task_id ++ "] Task failed: " ++ e

/-- The `try` block of `process_media` (lines 288-302), including the
Python truthiness checks `if not compressed_file`, `if not markdown_text`,
`if not pdf_file` (an empty string is falsy). -/
def processMediaBody (env : PipeEnv) (fs : FS)
    (input_path target_language processing_mode task_id : String) :
    Except String ((Option String × Option String) × List String) :=
  match env.f1 with
  | some e => .error e
  | none =>
    let a := media_processor env.media fs input_path task_id
    match a.result with
    | none => .ok ((none, none), a.logs)
    | some c =>
      if c = "" then .ok ((none, none), a.logs)
      else
        match env.f2 with
        | some e => .error e
        | none =>
          let ai := aigc_processor env.aigc c target_language processing_mode task_id
          match ai.result with
          | none => .ok ((some c, none), a.logs ++ ai.logs)
          | some t =>
            if t = "" then .ok ((some c, none), a.logs ++ ai.logs)
            else
              match env.f3 with
              | some e => .error e
              | none =>
                let pd := markdown_to_pdf env.save t c target_language processing_mode task_id
                match pd.result with
                | none => .ok ((some c, none), a.logs ++ ai.logs ++ pd.logs)
                | some p =>
                  if p = "" then .ok ((some c, none), a.logs ++ ai.logs ++ pd.logs)
                  else
                    .ok ((some c, some p),
                         a.logs ++ ai.logs ++ pd.logs ++
                         ["[" ++ task_id ++ "] Task completed successfully"])

/-- Model of `process_media`: run the staged body under the catch-all `except`,
which logs the failure tagged with the task id and returns `(None, None)`.
The task id is generated by `__get_taskid` from the wall clock and a random
fragment; it enters the model as a parameter. -/
def process_media (env : PipeEnv) (fs : FS)
    (input_path target_language processing_mode task_id : String) : PipeOut :=
  let l0 := ["[" ++ task_id ++ "] Task started: " ++ processing_mode ++ " in " ++ target_language]
  match processMediaBody env fs input_path target_language processing_mode task_id with
  | .ok pr => { pair := pr.1, logs := l0 ++ pr.2 }
  | .error e => { pair := (none, none), logs := l0 ++ [taskFailMsg task_id e] }

/-! ## Helper lemmas -/

theorem sanChar_fixed {c : Char} (h : (isWordCharA c || c = '-') = true) : sanChar c = c := by
  simp [sanChar, h]

theorem sanChar_underscore {c : Char} (h : ¬ (isWordCharA c || c = '-') = true) :
    sanChar c = '_' := by
  simp only [sanChar, if_neg h]

theorem allowedChar_sanChar (c : Char) : allowedChar (sanChar c) = true := by
  by_cases h : (isWordCharA c || c = '-') = true
  · rw [sanChar_fixed h]; simpa [allowedChar] using h
  · rw [sanChar_underscore h]; decide

theorem sanChar_idem (c : Char) : sanChar (sanChar c) = sanChar c := by
  by_cases h : (isWordCharA c || c = '-') = true
  · rw [sanChar_fixed h, sanChar_fixed h]
  · rw [sanChar_underscore h]; decide

theorem fsLookup_write_self (fs : FS) (p : String) (content : List Nat) :
    fsLookup (fsWrite fs p content) p = some content := by
  simp [fsLookup, fsWrite, List.find?]

theorem fsExists_unlink (fs : FS) (p : String) : fsExists (fsUnlink fs p) p = false := by
  induction fs with
  | nil => rfl
  | cons e fs ih =>
    by_cases h : e.1 = p
    · have he : fsUnlink (e :: fs) p = fsUnlink fs p := by
        simp [fsUnlink, List.filter_cons, h]
      rw [he]; exact ih
    · have he : fsUnlink (e :: fs) p = e :: fsUnlink fs p := by
        simp [fsUnlink, List.filter_cons, h]
      rw [he]
      have h3 : (e.1 == p) = false := beq_eq_false_iff_ne.mpr h
      simp only [fsExists, fsLookup] at ih ⊢
      rw [List.find?_cons_of_neg _ (by simp [h3])]
      exact ih

theorem fsExists_cleanup (fs : FS) (p : String) :
    fsExists (if fsExists fs p then fsUnlink fs p else fs) p = false := by
  by_cases h : fsExists fs p
  · rw [if_pos h]; exact fsExists_unlink fs p
  · rw [if_neg h]; exact Bool.not_eq_true _ ▸ (by simpa using h)

theorem chunksAux_nil (fuel : Nat) : chunksAux fuel [] = [] := by
  cases fuel <;> rfl

theorem chunksAux_join : ∀ (fuel : Nat) (l : List Nat), l.length ≤ fuel →
    (chunksAux fuel l).flatten = l := by
  intro fuel
  induction fuel with
  | zero =>
    intro l hl
    rw [List.length_eq_zero.mp (Nat.le_zero.mp hl)]
    rfl
  | succ fuel ih =>
    intro l hl
    match l with
    | [] => rfl
    | x :: xs =>
      have hd : ((x :: xs).drop 8192).length ≤ fuel := by
        rw [List.length_drop]
        calc (x :: xs).length - 8192 ≤ (x :: xs).length - 1 :=
              Nat.sub_le_sub_left (by norm_num) _
          _ = xs.length := by simp
          _ ≤ fuel := by simpa using hl
      show ((x :: xs).take 8192 :: chunksAux fuel ((x :: xs).drop 8192)).flatten = x :: xs
      rw [List.flatten_cons, ih _ hd, List.take_append_drop]

theorem chunksAux_mem : ∀ (fuel : Nat) (l : List Nat), l.length ≤ fuel →
    ∀ c ∈ chunksAux fuel l, c.length ≤ 8192 ∧ c ≠ [] := by
  intro fuel
  induction fuel with
  | zero =>
    intro l hl
    rw [List.length_eq_zero.mp (Nat.le_zero.mp hl)]
    intro c hc
    simp [chunksAux_nil] at hc
  | succ fuel ih =>
    intro l hl
    match l with
    | [] => intro c hc; simp [chunksAux_nil] at hc
    | x :: xs =>
      have hd : ((x :: xs).drop 8192).length ≤ fuel := by
        rw [List.length_drop]
        calc (x :: xs).length - 8192 ≤ (x :: xs).length - 1 :=
              Nat.sub_le_sub_left (by norm_num) _
          _ = xs.length := by simp
          _ ≤ fuel := by simpa using hl
      intro c hc
      rcases List.mem_cons.mp hc with rfl | hc
      · refine ⟨by simp [Nat.min_le_left], ?_⟩
        have : 0 < ((x :: xs).take 8192).length := by
          rw [List.length_take]
          exact Nat.lt_min.mpr ⟨by norm_num, by simp⟩
        exact List.ne_nil_of_length_pos this
      · exact ih _ hd c hc

theorem chunksAux_dropLast : ∀ (fuel : Nat) (l : List Nat), l.length ≤ fuel →
    ∀ c ∈ (chunksAux fuel l).dropLast, c.length = 8192 := by
  intro fuel
  induction fuel with
  | zero =>
    intro l hl
    rw [List.length_eq_zero.mp (Nat.le_zero.mp hl)]
    intro c hc
    simp [chunksAux_nil] at hc
  | succ fuel ih =>
    intro l hl
    match l with
    | [] => intro c hc; simp [chunksAux_nil] at hc
    | x :: xs =>
      have hd : ((x :: xs).drop 8192).length ≤ fuel := by
        rw [List.length_drop]
        calc (x :: xs).length - 8192 ≤ (x :: xs).length - 1 :=
              Nat.sub_le_sub_left (by norm_num) _
          _ = xs.length := by simp
          _ ≤ fuel := by simpa using hl
      intro c hc
      have hstep : chunksAux (fuel + 1) (x :: xs) =
          (x :: xs).take 8192 :: chunksAux fuel ((x :: xs).drop 8192) := rfl
      rw [hstep] at hc
      rcases hrest : chunksAux fuel ((x :: xs).drop 8192) with _ | ⟨r, rs⟩
      · rw [hrest] at hc; simp at hc
      · rw [hrest] at hc
        rw [List.dropLast_cons₂] at hc
        rcases List.mem_cons.mp hc with rfl | hc2
        · have hne : (x :: xs).drop 8192 ≠ [] := by
            intro hnil
            rw [hnil, chunksAux_nil] at hrest
            exact List.cons_ne_nil r rs hrest.symm
          have hlen : 8192 < (x :: xs).length := List.length_lt_of_drop_ne_nil hne
          rw [List.length_take]
          exact Nat.min_eq_left (Nat.le_of_lt hlen)
        · have := ih _ hd c
          rw [hrest] at this
          exact this hc2

theorem foldl_append_content : ∀ (cs : List (List Nat)) (fs : FS) (p : String) (acc : List Nat),
    fsLookup fs p = some acc →
    fsLookup (cs.foldl (fun a ch => fsAppend a p ch) fs) p = some (acc ++ cs.flatten) := by
  intro cs
  induction cs with
  | nil => intro fs p acc h; simpa using h
  | cons ch cs ih =>
    intro fs p acc h
    have happ : fsAppend fs p ch = fsWrite fs p (acc ++ ch) := by
      simp [fsAppend, h]
    show fsLookup (cs.foldl (fun a ch => fsAppend a p ch) (fsAppend fs p ch)) p = _
    rw [happ, ih _ p (acc ++ ch) (fsLookup_write_self _ _ _), List.flatten_cons,
        List.append_assoc]

theorem subFLAux_nil (fuel : Nat) : subFLAux fuel [] = [] := by cases fuel <;> rfl

theorem subFAux_nil (fuel : Nat) : subFAux fuel [] = [] := by cases fuel <;> rfl

theorem fenceLangMatch_length : ∀ {l tail : List Char}, fenceLangMatch l = some tail →
    tail.length + 4 ≤ l.length := by
  intro l tail h
  unfold fenceLangMatch at h
  split at h
  · rename_i rest
    split at h
    · rename_i tail2 heq
      injection h with h2
      subst h2
      have h3 : (rest.dropWhile isAsciiAlpha).length ≤ rest.length :=
        (List.dropWhile_sublist _).length_le
      rw [heq] at h3
      simp only [List.length_cons] at h3 ⊢
      omega
    · exact absurd h (by simp)
  · exact absurd h (by simp)

theorem fenceMatch_length : ∀ {l tail : List Char}, fenceMatch l = some tail →
    tail.length + 3 ≤ l.length := by
  intro l tail h
  unfold fenceMatch at h
  split at h
  · rename_i rest
    split at h
    · rename_i tail2 heq
      injection h with h2
      subst h2
      simp only [List.length_cons]
      omega
    · injection h with h2
      subst h2
      simp only [List.length_cons]
      omega
  · exact absurd h (by simp)

theorem fenceLangMatch_cons_ne {c : Char} (t : List Char) (h : c ≠ '\x60') :
    fenceLangMatch (c :: t) = none := by
  unfold fenceLangMatch
  split
  · rename_i rest heq
    injection heq with h1 _
    exact absurd h1 h
  · rfl

theorem fenceMatch_cons_ne {c : Char} (t : List Char) (h : c ≠ '\x60') :
    fenceMatch (c :: t) = none := by
  unfold fenceMatch
  split
  · rename_i rest heq
    injection heq with h1 _
    exact absurd h1 h
  · rfl

theorem subFLAux_congr : ∀ (f1 f2 : Nat) (l : List Char), l.length ≤ f1 → l.length ≤ f2 →
    subFLAux f1 l = subFLAux f2 l := by
  intro f1
  induction f1 with
  | zero =>
    intro f2 l h1 _
    rw [List.length_eq_zero.mp (Nat.le_zero.mp h1), subFLAux_nil, subFLAux_nil]
  | succ f1 ih =>
    intro f2 l h1 h2
    match l with
    | [] => rw [subFLAux_nil, subFLAux_nil]
    | c :: rest =>
      match f2 with
      | 0 => exact absurd h2 (by simp)
      | g + 1 =>
        show (match fenceLangMatch (c :: rest) with
              | some tail => subFLAux f1 tail
              | none => c :: subFLAux f1 rest) =
             (match fenceLangMatch (c :: rest) with
              | some tail => subFLAux g tail
              | none => c :: subFLAux g rest)
        rcases hm : fenceLangMatch (c :: rest) with _ | tail
        · simp only
          have hr1 : rest.length ≤ f1 := by simp only [List.length_cons] at h1; omega
          have hr2 : rest.length ≤ g := by simp only [List.length_cons] at h2; omega
          rw [ih g rest hr1 hr2]
        · simp only
          have hb := fenceLangMatch_length hm
          simp only [List.length_cons] at hb h1 h2
          exact ih g tail (by omega) (by omega)

theorem subFAux_congr : ∀ (f1 f2 : Nat) (l : List Char), l.length ≤ f1 → l.length ≤ f2 →
    subFAux f1 l = subFAux f2 l := by
  intro f1
  induction f1 with
  | zero =>
    intro f2 l h1 _
    rw [List.length_eq_zero.mp (Nat.le_zero.mp h1), subFAux_nil, subFAux_nil]
  | succ f1 ih =>
    intro f2 l h1 h2
    match l with
    | [] => rw [subFAux_nil, subFAux_nil]
    | c :: rest =>
      match f2 with
      | 0 => exact absurd h2 (by simp)
      | g + 1 =>
        show (match fenceMatch (c :: rest) with
              | some tail => subFAux f1 tail
              | none => c :: subFAux f1 rest) =
             (match fenceMatch (c :: rest) with
              | some tail => subFAux g tail
              | none => c :: subFAux g rest)
        rcases hm : fenceMatch (c :: rest) with _ | tail
        · simp only
          have hr1 : rest.length ≤ f1 := by simp only [List.length_cons] at h1; omega
          have hr2 : rest.length ≤ g := by simp only [List.length_cons] at h2; omega
          rw [ih g rest hr1 hr2]
        · simp only
          have hb := fenceMatch_length hm
          simp only [List.length_cons] at hb h1 h2
          exact ih g tail (by omega) (by omega)

theorem subFL_cons_match {c : Char} {rest tail : List Char}
    (h : fenceLangMatch (c :: rest) = some tail) : subFL (c :: rest) = subFL tail := by
  show subFLAux (rest.length + 1) (c :: rest) = subFL tail
  have hstep : subFLAux (rest.length + 1) (c :: rest) =
      match fenceLangMatch (c :: rest) with
      | some t => subFLAux rest.length t
      | none => c :: subFLAux rest.length rest := rfl
  rw [hstep, h]
  have hb := fenceLangMatch_length h
  simp only [List.length_cons] at hb
  exact subFLAux_congr rest.length tail.length tail (by omega) (Nat.le_refl _)

theorem subFL_cons_none {c : Char} {rest : List Char}
    (h : fenceLangMatch (c :: rest) = none) : subFL (c :: rest) = c :: subFL rest := by
  show subFLAux (rest.length + 1) (c :: rest) = _
  have hstep : subFLAux (rest.length + 1) (c :: rest) =
      match fenceLangMatch (c :: rest) with
      | some t => subFLAux rest.length t
      | none => c :: subFLAux rest.length rest := rfl
  rw [hstep, h]
  rfl

theorem subF_cons_match {c : Char} {rest tail : List Char}
    (h : fenceMatch (c :: rest) = some tail) : subF (c :: rest) = subF tail := by
  show subFAux (rest.length + 1) (c :: rest) = subF tail
  have hstep : subFAux (rest.length + 1) (c :: rest) =
      match fenceMatch (c :: rest) with
      | some t => subFAux rest.length t
      | none => c :: subFAux rest.length rest := rfl
  rw [hstep, h]
  have hb := fenceMatch_length h
  simp only [List.length_cons] at hb
  exact subFAux_congr rest.length tail.length tail (by omega) (Nat.le_refl _)

theorem subF_cons_none {c : Char} {rest : List Char}
    (h : fenceMatch (c :: rest) = none) : subF (c :: rest) = c :: subF rest := by
  show subFAux (rest.length + 1) (c :: rest) = _
  have hstep : subFAux (rest.length + 1) (c :: rest) =
      match fenceMatch (c :: rest) with
      | some t => subFAux rest.length t
      | none => c :: subFAux rest.length rest := rfl
  rw [hstep, h]
  rfl

theorem subFL_append {B rest : List Char} (h : '\x60' ∉ B) :
    subFL (B ++ rest) = B ++ subFL rest := by
  induction B with
  | nil => rfl
  | cons c B ih =>
    rw [List.mem_cons] at h
    push_neg at h
    obtain ⟨h1, hB⟩ := h
    rw [List.cons_append, subFL_cons_none (fenceLangMatch_cons_ne _ (Ne.symm h1)),
        ih hB, List.cons_append]

theorem subF_append {B rest : List Char} (h : '\x60' ∉ B) :
    subF (B ++ rest) = B ++ subF rest := by
  induction B with
  | nil => rfl
  | cons c B ih =>
    rw [List.mem_cons] at h
    push_neg at h
    obtain ⟨h1, hB⟩ := h
    rw [List.cons_append, subF_cons_none (fenceMatch_cons_ne _ (Ne.symm h1)),
        ih hB, List.cons_append]

theorem dropWhile_append_all {p : Char → Bool} {L : List Char} (R : List Char)
    (h : ∀ c ∈ L, p c = true) : (L ++ R).dropWhile p = R.dropWhile p := by
  induction L with
  | nil => rfl
  | cons c L ih =>
    rw [List.cons_append, List.dropWhile_cons_of_pos (h c (List.mem_cons_self c L))]
    exact ih (fun d hd => h d (List.mem_cons_of_mem c hd))

theorem subFL_fence (L R : List Char) (hL : ∀ c ∈ L, isAsciiAlpha c = true) :
    subFL ('\x60' :: '\x60' :: '\x60' :: (L ++ '\n' :: R)) = subFL R := by
  apply subFL_cons_match
  show (match (L ++ '\n' :: R).dropWhile isAsciiAlpha with
        | '\n' :: tail => some tail
        | _ => none) = some R
  rw [dropWhile_append_all _ hL,
      List.dropWhile_cons_of_neg (by decide : ¬isAsciiAlpha '\n' = true)]
  rfl

theorem pyStripL_append_space {B : List Char} {c : Char} (hc : isPySpace c = true) :
    pyStripL (B ++ [c]) = pyStripL B := by
  unfold pyStripL
  rw [List.dropWhile_append]
  by_cases h : (B.dropWhile isPySpace).isEmpty = true
  · rw [if_pos h, List.dropWhile_cons_of_pos hc]
    rw [List.isEmpty_iff] at h
    rw [h]
    rfl
  · rw [if_neg h, List.reverse_append, List.reverse_singleton, List.singleton_append,
        List.dropWhile_cons_of_pos hc]

theorem mdpdf_none_of_heading {save : Except String Unit}
    {markdown_text original_path target_language processing_mode task_id : String}
    (h : mdStartsHash markdown_text = true) :
    (markdown_to_pdf save markdown_text original_path target_language processing_mode
      task_id).result = none := by
  simp [markdown_to_pdf, h, refVar, Except.bind]

theorem mdpdf_some_not_heading {save : Except String Unit}
    {markdown_text original_path target_language processing_mode task_id p : String}
    (h : (markdown_to_pdf save markdown_text original_path target_language processing_mode
      task_id).result = some p) :
    mdStartsHash markdown_text = false := by
  by_cases hsw : mdStartsHash markdown_text = true
  · rw [mdpdf_none_of_heading hsw] at h
    exact absurd h (by simp)
  · exact Bool.not_eq_true _ ▸ hsw

theorem process_media_pair_some_some
    {env : PipeEnv} {fs : FS} {input lang mode tid c p : String}
    (h : (process_media env fs input lang mode tid).pair = (some c, some p)) :
    env.f1 = none ∧ env.f2 = none ∧ env.f3 = none ∧
    (media_processor env.media fs input tid).result = some c ∧ c ≠ "" ∧
    ∃ t, (aigc_processor env.aigc c lang mode tid).result = some t ∧ t ≠ "" ∧
      (markdown_to_pdf env.save t c lang mode tid).result = some p ∧ p ≠ "" := by
  unfold process_media at h
  rcases hb : processMediaBody env fs input lang mode tid with e | pr <;> rw [hb] at h
  · simp at h
  · simp only at h
    rcases hf1 : env.f1 with _ | e1
    · rcases ha : (media_processor env.media fs input tid).result with _ | cq
      · simp only [processMediaBody, hf1, ha, Except.ok.injEq] at hb
        rw [← hb] at h
        simp at h
      · by_cases hcq : cq = ""
        · simp [processMediaBody, hf1, ha, hcq] at hb
          rw [← hb] at h
          simp at h
        · rcases hf2 : env.f2 with _ | e2
          · rcases hai : (aigc_processor env.aigc cq lang mode tid).result with _ | tq
            · simp only [processMediaBody, hf1, ha, if_neg hcq, hf2, hai,
                Except.ok.injEq] at hb
              rw [← hb] at h
              simp at h
            · by_cases htq : tq = ""
              · simp [processMediaBody, hf1, ha, hcq, hf2, hai, htq] at hb
                rw [← hb] at h
                simp at h
              · rcases hf3 : env.f3 with _ | e3
                · rcases hpd : (markdown_to_pdf env.save tq cq lang mode tid).result with _ | pq2
                  · simp only [processMediaBody, hf1, ha, if_neg hcq, hf2, hai, if_neg htq,
                      hf3, hpd, Except.ok.injEq] at hb
                    rw [← hb] at h
                    simp at h
                  · by_cases hpq : pq2 = ""
                    · simp [processMediaBody, hf1, ha, hcq, hf2, hai, htq, hf3, hpd, hpq] at hb
                      rw [← hb] at h
                      simp at h
                    · simp only [processMediaBody, hf1, ha, if_neg hcq, hf2, hai, if_neg htq,
                        hf3, hpd, if_neg hpq, Except.ok.injEq] at hb
                      rw [← hb] at h
                      simp only [Prod.mk.injEq, Option.some.injEq] at h
                      obtain ⟨hcc, hpp⟩ := h
                      subst hcc
                      subst hpp
                      exact ⟨rfl, rfl, rfl, rfl, hcq, tq, hai, htq, hpd, hpq⟩
                · simp only [processMediaBody, hf1, ha, if_neg hcq, hf2, hai, if_neg htq,
                    hf3] at hb
                  exact absurd hb (by simp)
          · simp only [processMediaBody, hf1, ha, if_neg hcq, hf2] at hb
            exact absurd hb (by simp)
    · simp only [processMediaBody, hf1] at hb
      exact absurd hb (by simp)

/-! ## Claim theorems -/

/-- C10: the filename sanitization of `__compress_audio` (and of
`__markdown_to_pdf`) is idempotent: `sanitize (sanitize s) = sanitize s`
for every string `s`. -/
theorem sanitize_idempotent (s : String) : sanitize (sanitize s) = sanitize s := by
  unfold sanitize
  rw [show (String.mk (s.data.map sanChar)).data = s.data.map sanChar from rfl,
      List.map_map]
  congr 1
  exact List.map_congr_left (fun c _ => sanChar_idem c)

/-- C3 counterexample: `__process_youtube` embeds the streaming-platform
video title verbatim in the temporary filename
`f"{task_id}_{yt.title}.m4a"`; for the title `"My Talk"` the resulting
name contains a space, which lies outside `[A-Za-z0-9_-]`, so not every
user-controlled string feeding a temporary filename is sanitized. -/
theorem unsanitized_title_counterexample :
    ' ' ∈ (ytDownloadPath "20250101_120000_ab12cd34" "My Talk").data ∧
    allowedChar ' ' = false ∧
    ytDownloadPath "20250101_120000_ab12cd34" "My Talk" ≠
      ytDownloadPath "20250101_120000_ab12cd34" (sanitize "My Talk") := by
  decide

/-- C3 (amended): only the original file's basename is sanitized before
building a temporary path — every character outside `[A-Za-z0-9_-]` in the
(ASCII) stem is replaced by `_`, so the sanitized part contains only
characters from `[A-Za-z0-9_-]` — while the streaming-platform video title
is embedded verbatim, unsanitized, in the `.m4a` filename.  (On non-ASCII
input Python's Unicode `\w` additionally keeps non-ASCII word characters;
the hypothesis restricts to the ASCII fragment this model covers.) -/
theorem sanitize_output_class (s : String) (hascii : ∀ c ∈ s.data, c.toNat < 128) :
    (∀ c ∈ (sanitize s).data, allowedChar c = true) ∧
    (∀ task_id title, ytDownloadPath task_id title =
       tmpdir ++ "/" ++ task_id ++ "_" ++ title ++ ".m4a") := by
  refine ⟨?_, fun _ _ => rfl⟩
  intro c hc
  rw [show (sanitize s).data = s.data.map sanChar from rfl] at hc
  obtain ⟨d, -, rfl⟩ := List.mem_map.mp hc
  exact allowedChar_sanChar d

/-- Witness for C3 (amended) at the concrete string `"a b!"`. -/
theorem sanitize_output_class_witness :
    (sanitize "a b!").data.all allowedChar = true :=
  List.all_eq_true.mpr (fun c hc => (sanitize_output_class "a b!" (by decide)).1 c hc)

/-- C4 counterexample: the source compiles the YouTube pattern without
`re.IGNORECASE`, so matching is case-sensitive: `"Youtube.com/watch?v=x"`
matches the pattern case-insensitively (as the claim reads it) yet
classifies as `invalid`, not `streamingUrl`; and a string matching the
pattern that names an existing file classifies as `localFile`. -/
theorem classify_case_counterexample :
    is_youtube_url_ci "Youtube.com/watch?v=x" = true ∧
    classify [] "Youtube.com/watch?v=x" = InputClass.invalid ∧
    classify [("youtube.com/watch?v=x", [])] "youtube.com/watch?v=x" =
      InputClass.localFile := by
  decide

/-- C4 (amended): for every string matching the pattern
`^(https?://)?(www\.)?(youtube|youtu|youtube-nocookie)\.(com|be)/`
case-sensitively that is not a path to an existing file, classification
yields `streamingUrl`; in particular `"youtube.com/watch?v=x"` classifies
as `streamingUrl`, `"http://example.com/a.mp4"` as `genericUrl`, and the
non-existent path `"/tmp/missing.mp4"` as `invalid`. -/
theorem classify_streaming_spec :
    (∀ (fs : FS) (s : String), fsExists fs s = false → is_youtube_url s = true →
       classify fs s = InputClass.streamingUrl) ∧
    classify [] "youtube.com/watch?v=x" = InputClass.streamingUrl ∧
    classify [] "http://example.com/a.mp4" = InputClass.genericUrl ∧
    classify [] "/tmp/missing.mp4" = InputClass.invalid := by
  refine ⟨?_, by decide, by decide, by decide⟩
  intro fs s h1 h2
  simp [classify, h1, h2]

/-- Witness for C4 (amended): the universal part applied to the concrete
input `"youtu.be/abc"` over empty storage. -/
theorem classify_streaming_spec_witness :
    classify [] "youtu.be/abc" = InputClass.streamingUrl :=
  classify_streaming_spec.1 [] "youtu.be/abc" (by decide) (by decide)

/-- C5: after a `StreamingUrl` or `GenericUrl` acquisition in which the
download step succeeded, the intermediate downloaded file (the task-scoped
`.m4a`, resp. the `.mp4`-suffixed temporary file) no longer exists on
local storage when the acquisition returns, whatever the compression
outcome (`env.compress` stays universally quantified). -/
theorem intermediate_deleted :
    (∀ (env : YtEnv) (fs : FS) (url task_id title : String),
       env.meta = Except.ok title → env.download = Except.ok () →
       fsExists (process_youtube env fs url task_id).fs (ytDownloadPath task_id title) = false) ∧
    (∀ (env : WebEnv) (fs : FS) (url task_id : String) (now status : Nat) (content : List Nat),
       env.getResult = Except.ok (status, content) →
       fsExists (process_web_url env fs url task_id now).fs (webTempPath url now) = false) := by
  constructor
  · intro env fs url task_id title hm hd
    simp only [process_youtube, hm, hd]
    exact fsExists_cleanup _ _
  · intro env fs url task_id now status content hg
    simp only [process_web_url, hg]
    exact fsExists_cleanup _ _

/-- Witness for C5: both acquisitions at concrete environments (a failing
compression for the YouTube branch, a succeeding one for the web branch). -/
theorem intermediate_deleted_witness :
    fsExists (process_youtube
        ⟨Except.ok "My Talk", Except.ok (), ⟨Except.error "boom", Except.ok (), Except.ok ()⟩⟩
        [] "youtu.be/abc" "t1").fs (ytDownloadPath "t1" "My Talk") = false ∧
    fsExists (process_web_url
        ⟨Except.ok (200, [1, 2, 3]), ⟨Except.ok (), Except.ok (), Except.ok ()⟩⟩
        [] "http://example.com/a.mp4" "t1" 42).fs
      (webTempPath "http://example.com/a.mp4" 42) = false :=
  ⟨intermediate_deleted.1 _ [] "youtu.be/abc" "t1" "My Talk" rfl rfl,
   intermediate_deleted.2 _ [] "http://example.com/a.mp4" "t1" 42 200 [1, 2, 3] rfl⟩

/-- C6: `__compress_audio` releases the decoder handle on every exit path
— `handleOpen` is `false` whatever the oracle outcomes — and on a failure
of any of the three steps (open, fade-out, encode) it returns `None` and
logs the error tagged with the task id, instead of raising (the model is a
total function). -/
theorem compress_audio_resource_safety :
    (∀ (env : CompressEnv) (fs : FS) (filepath task_id : String),
       (compress_audio env fs filepath task_id).handleOpen = false) ∧
    (∀ (env : CompressEnv) (fs : FS) (filepath task_id e : String),
       env.openClip = Except.error e →
       (compress_audio env fs filepath task_id).result = none ∧
       compressFailMsg task_id e ∈ (compress_audio env fs filepath task_id).logs) ∧
    (∀ (env : CompressEnv) (fs : FS) (filepath task_id e : String),
       env.openClip = Except.ok () → env.fadeout = Except.error e →
       (compress_audio env fs filepath task_id).result = none ∧
       compressFailMsg task_id e ∈ (compress_audio env fs filepath task_id).logs) ∧
    (∀ (env : CompressEnv) (fs : FS) (filepath task_id e : String),
       env.openClip = Except.ok () → env.fadeout = Except.ok () →
       env.writeAudio = Except.error e →
       (compress_audio env fs filepath task_id).result = none ∧
       compressFailMsg task_id e ∈ (compress_audio env fs filepath task_id).logs) := by
  refine ⟨?_, ?_, ?_, ?_⟩
  · intro env fs filepath task_id
    rcases h1 : env.openClip with e | u
    · simp [compress_audio, h1, closeIfBound]
    · rcases h2 : env.fadeout with e | u2
      · simp [compress_audio, h1, h2, closeIfBound]
      · rcases h3 : env.writeAudio with e | u3
        · simp [compress_audio, h1, h2, h3, closeIfBound]
        · simp [compress_audio, h1, h2, h3, closeIfBound]
  · intro env fs filepath task_id e h1
    simp [compress_audio, h1]
  · intro env fs filepath task_id e h1 h2
    simp [compress_audio, h1, h2]
  · intro env fs filepath task_id e h1 h2 h3
    simp [compress_audio, h1, h2, h3]

/-- Witness for C6: the encode step fails at a concrete environment. -/
theorem compress_audio_resource_safety_witness :
    (compress_audio ⟨Except.ok (), Except.ok (), Except.error "codec"⟩ [] "/tmp/in.mp4" "t1").result
        = none ∧
    compressFailMsg "t1" "codec" ∈
      (compress_audio ⟨Except.ok (), Except.ok (), Except.error "codec"⟩ [] "/tmp/in.mp4" "t1").logs :=
  compress_audio_resource_safety.2.2.2 _ [] "/tmp/in.mp4" "t1" "codec" rfl rfl rfl

/-- C7: the `with open(temp_path, 'wb')` block of `__process_web_url`
writes the response body to the temporary file only when the HTTP status
is 200 — on any other status the file stays empty — and the body is
delivered in chunks of 8192 bytes: the chunks reassemble to exactly the
response body, every chunk is non-empty with at most 8192 bytes, and
every chunk except the last has exactly 8192 bytes. -/
theorem web_download_chunked :
    (∀ (fs : FS) (p : String) (status : Nat) (content : List Nat), status ≠ 200 →
       fsLookup (downloadToFile fs p status content) p = some []) ∧
    (∀ (fs : FS) (p : String) (content : List Nat),
       fsLookup (downloadToFile fs p 200 content) p = some content) ∧
    (∀ content : List Nat, (chunks content).flatten = content) ∧
    (∀ content : List Nat, ∀ c ∈ chunks content, c.length ≤ 8192 ∧ c ≠ []) ∧
    (∀ content : List Nat, ∀ c ∈ (chunks content).dropLast, c.length = 8192) := by
  refine ⟨?_, ?_, ?_, ?_, ?_⟩
  · intro fs p status content hst
    simp only [downloadToFile, if_neg hst]
    exact fsLookup_write_self _ _ _
  · intro fs p content
    have hdl : downloadToFile fs p 200 content =
        (chunks content).foldl (fun a ch => fsAppend a p ch) (fsWrite fs p []) := by
      simp [downloadToFile]
    rw [hdl, foldl_append_content _ _ _ [] (fsLookup_write_self _ _ _), List.nil_append]
    rw [show chunks content = chunksAux content.length content from rfl,
        chunksAux_join _ _ (Nat.le_refl _)]
  · intro content; exact chunksAux_join _ _ (Nat.le_refl _)
  · intro content; exact chunksAux_mem _ _ (Nat.le_refl _)
  · intro content; exact chunksAux_dropLast _ _ (Nat.le_refl _)

/-- Witness for C7: a 404 response leaves the file empty, a 200 response
with a three-byte body fills it, and the single chunk `[1, 2, 3]` is
non-empty with at most 8192 bytes. -/
theorem web_download_chunked_witness :
    fsLookup (downloadToFile [] "/tmp/a.mp4" 404 [1, 2, 3]) "/tmp/a.mp4" = some [] ∧
    fsLookup (downloadToFile [] "/tmp/a.mp4" 200 [1, 2, 3]) "/tmp/a.mp4" = some [1, 2, 3] ∧
    ([1, 2, 3].length ≤ 8192 ∧ [1, 2, 3] ≠ []) :=
  ⟨web_download_chunked.1 [] "/tmp/a.mp4" 404 [1, 2, 3] (by decide),
   web_download_chunked.2.1 [] "/tmp/a.mp4" [1, 2, 3],
   web_download_chunked.2.2.2.1 [1, 2, 3] [1, 2, 3] (by decide)⟩

theorem mem_pyStripL {c : Char} {l : List Char} (h : c ∈ pyStripL l) : c ∈ l := by
  unfold pyStripL at h
  rw [List.mem_reverse] at h
  have h2 := (List.dropWhile_sublist _).mem h
  rw [List.mem_reverse] at h2
  exact (List.dropWhile_sublist _).mem h2

/-- C9: cleaning a Markdown fenced code block — opening fence ```` ``` ````
with an optional alphabetic language tag and a newline, closing fence
```` ``` ```` — removes the fence markers and keeps the enclosed text (up
to the final strip of surrounding whitespace), and the cleaned result
contains no backtick marker. -/
theorem clean_markdown_fence_removal (lang body : String)
    (hlang : ∀ c ∈ lang.data, isAsciiAlpha c = true)
    (hbody : '\x60' ∉ body.data) :
    clean_markdown ("```" ++ lang ++ "\n" ++ body ++ "\n```") = pyStrip body ∧
    '\x60' ∉ (clean_markdown ("```" ++ lang ++ "\n" ++ body ++ "\n```")).data := by
  have hdata : ("```" ++ lang ++ "\n" ++ body ++ "\n```").data =
      '\x60' :: '\x60' :: '\x60' :: (lang.data ++ '\n' :: (body.data ++ '\n' :: ['\x60', '\x60', '\x60'])) := by
    rw [String.data_append, String.data_append, String.data_append, String.data_append]
    show ['\x60', '\x60', '\x60'] ++ lang.data ++ ['\n'] ++ body.data ++ ['\n', '\x60', '\x60', '\x60'] = _
    simp
  have hres : clean_markdown ("```" ++ lang ++ "\n" ++ body ++ "\n```") = pyStrip body := by
    unfold clean_markdown
    rw [hdata, subFL_fence _ _ hlang, subFL_append hbody,
        show subFL ('\n' :: ['\x60', '\x60', '\x60']) = '\n' :: ['\x60', '\x60', '\x60'] from by decide,
        subF_append hbody,
        show subF ('\n' :: ['\x60', '\x60', '\x60']) = ['\n'] from by decide,
        show body.data ++ ['\n'] = body.data ++ ['\n'] from rfl,
        pyStripL_append_space (by decide : isPySpace '\n' = true)]
    rfl
  refine ⟨hres, ?_⟩
  rw [hres]
  intro hmem
  exact hbody (mem_pyStripL hmem)

/-- Witness for C9 at the spec's example `"```python\nprint(1)\n```"`. -/
theorem clean_markdown_fence_removal_witness :
    clean_markdown ("```" ++ "python" ++ "\n" ++ "print(1)" ++ "\n```") = pyStrip "print(1)" ∧
    pyStrip "print(1)" = "print(1)" :=
  ⟨(clean_markdown_fence_removal "python" "print(1)" (by decide) (by decide)).1, by decide⟩

/-- C1: `process_media` never raises (the model is a total function on
every environment) and the returned pair encodes the failing stage: an
unexpected exception raised at any of the three stage call sites, or an
acquisition returning nothing, yields `(none, none)`; a successful
acquisition followed by an absent AI or PDF result yields `(some c, none)`;
`(some c, some p)` is returned exactly when all three stages succeed. -/
theorem process_media_stage_shape :
    (∀ (env : PipeEnv) (fs : FS) (input lang mode tid e : String), env.f1 = some e →
       (process_media env fs input lang mode tid).pair = (none, none)) ∧
    (∀ (env : PipeEnv) (fs : FS) (input lang mode tid : String), env.f1 = none →
       (media_processor env.media fs input tid).result = none →
       (process_media env fs input lang mode tid).pair = (none, none)) ∧
    (∀ (env : PipeEnv) (fs : FS) (input lang mode tid c e : String), env.f1 = none →
       (media_processor env.media fs input tid).result = some c → c ≠ "" →
       env.f2 = some e →
       (process_media env fs input lang mode tid).pair = (none, none)) ∧
    (∀ (env : PipeEnv) (fs : FS) (input lang mode tid c : String), env.f1 = none →
       (media_processor env.media fs input tid).result = some c → c ≠ "" →
       env.f2 = none →
       (aigc_processor env.aigc c lang mode tid).result = none →
       (process_media env fs input lang mode tid).pair = (some c, none)) ∧
    (∀ (env : PipeEnv) (fs : FS) (input lang mode tid c t e : String), env.f1 = none →
       (media_processor env.media fs input tid).result = some c → c ≠ "" →
       env.f2 = none →
       (aigc_processor env.aigc c lang mode tid).result = some t → t ≠ "" →
       env.f3 = some e →
       (process_media env fs input lang mode tid).pair = (none, none)) ∧
    (∀ (env : PipeEnv) (fs : FS) (input lang mode tid c t : String), env.f1 = none →
       (media_processor env.media fs input tid).result = some c → c ≠ "" →
       env.f2 = none →
       (aigc_processor env.aigc c lang mode tid).result = some t → t ≠ "" →
       env.f3 = none →
       (markdown_to_pdf env.save t c lang mode tid).result = none →
       (process_media env fs input lang mode tid).pair = (some c, none)) ∧
    (∀ (env : PipeEnv) (fs : FS) (input lang mode tid c t p : String), env.f1 = none →
       (media_processor env.media fs input tid).result = some c → c ≠ "" →
       env.f2 = none →
       (aigc_processor env.aigc c lang mode tid).result = some t → t ≠ "" →
       env.f3 = none →
       (markdown_to_pdf env.save t c lang mode tid).result = some p → p ≠ "" →
       (process_media env fs input lang mode tid).pair = (some c, some p)) ∧
    (∀ (env : PipeEnv) (fs : FS) (input lang mode tid c p : String),
       (process_media env fs input lang mode tid).pair = (some c, some p) →
       env.f1 = none ∧ env.f2 = none ∧ env.f3 = none ∧
       (media_processor env.media fs input tid).result = some c ∧
       ∃ t, (aigc_processor env.aigc c lang mode tid).result = some t ∧
         (markdown_to_pdf env.save t c lang mode tid).result = some p) := by
  refine ⟨?_, ?_, ?_, ?_, ?_, ?_, ?_, ?_⟩
  · intro env fs input lang mode tid e h1
    simp [process_media, processMediaBody, h1]
  · intro env fs input lang mode tid h1 h2
    simp [process_media, processMediaBody, h1, h2]
  · intro env fs input lang mode tid c e h1 h2 h3 h4
    simp [process_media, processMediaBody, h1, h2, h3, h4]
  · intro env fs input lang mode tid c h1 h2 h3 h4 h5
    simp [process_media, processMediaBody, h1, h2, h3, h4, h5]
  · intro env fs input lang mode tid c t e h1 h2 h3 h4 h5 h6 h7
    simp [process_media, processMediaBody, h1, h2, h3, h4, h5, h6, h7]
  · intro env fs input lang mode tid c t h1 h2 h3 h4 h5 h6 h7 h8
    simp [process_media, processMediaBody, h1, h2, h3, h4, h5, h6, h7, h8]
  · intro env fs input lang mode tid c t p h1 h2 h3 h4 h5 h6 h7 h8 h9
    simp [process_media, processMediaBody, h1, h2, h3, h4, h5, h6, h7, h8, h9]
  · intro env fs input lang mode tid c p h
    obtain ⟨hf1, hf2, hf3, ha, -, t, hai, -, hpd, -⟩ := process_media_pair_some_some h
    exact ⟨hf1, hf2, hf3, ha, t, hai, hpd⟩

/-- Witness for C1: the full-success case at a concrete environment (a
local file acquisition, a succeeding AI call answering `"Hello"`, a
succeeding PDF save). -/
theorem process_media_stage_shape_witness :
    (process_media
      ⟨⟨⟨Except.ok (), Except.ok (), Except.ok ()⟩,
        ⟨Except.ok "T", Except.ok (), ⟨Except.ok (), Except.ok (), Except.ok ()⟩⟩,
        ⟨Except.ok (200, []), ⟨Except.ok (), Except.ok (), Except.ok ()⟩⟩, 0⟩,
       ⟨Except.ok 5, Except.ok "f", Except.ok "Hello"⟩, Except.ok (), none, none, none⟩
      [("in.mp4", [])] "in.mp4" "english" "analysis" "t1").pair =
      (some "/tmp/in.mp3", some "/tmp/in_analysis_english.pdf") :=
  process_media_stage_shape.2.2.2.2.2.2.1 _ [("in.mp4", [])] "in.mp4" "english" "analysis"
    "t1" "/tmp/in.mp3" "Hello" "/tmp/in_analysis_english.pdf"
    rfl (by decide) (by decide) rfl (by decide) (by decide) rfl (by decide) (by decide)

/-- C2: `__markdown_to_pdf` reads the local `title` unconditionally when
setting the document metadata, but assigns it only when the Markdown does
not already start with `'# '`; hence for Markdown starting with a level-1
heading the stage's caught error yields an absent result, `process_media`
returns `(compressed, none)` whenever the AI stage's cleaned output starts
with `'# '` (and no unexpected exception is injected), and a full
`(compressed, pdf)` result forces an AI output that does not start with
`'# '`. -/
theorem pdf_title_unbound :
    (∀ (save : Except String Unit) (md orig lang mode tid : String),
       mdStartsHash md = true →
       (markdown_to_pdf save md orig lang mode tid).result = none) ∧
    (∀ (env : PipeEnv) (fs : FS) (input lang mode tid c t : String),
       env.f1 = none → env.f2 = none → env.f3 = none →
       (media_processor env.media fs input tid).result = some c → c ≠ "" →
       (aigc_processor env.aigc c lang mode tid).result = some t →
       mdStartsHash t = true →
       (process_media env fs input lang mode tid).pair = (some c, none)) ∧
    (∀ (env : PipeEnv) (fs : FS) (input lang mode tid c p : String),
       (process_media env fs input lang mode tid).pair = (some c, some p) →
       ∃ t, (aigc_processor env.aigc c lang mode tid).result = some t ∧
         mdStartsHash t = false) := by
  refine ⟨?_, ?_, ?_⟩
  · intro save md orig lang mode tid h
    exact mdpdf_none_of_heading h
  · intro env fs input lang mode tid c t hf1 hf2 hf3 ha hc hai hstart
    have ht : t ≠ "" := by
      intro h0
      rw [h0] at hstart
      exact absurd hstart (by decide)
    simp [process_media, processMediaBody, hf1, hf2, hf3, ha, hc, hai, ht,
          mdpdf_none_of_heading hstart]
  · intro env fs input lang mode tid c p h
    obtain ⟨-, -, -, -, -, t, hai, -, hpd, -⟩ := process_media_pair_some_some h
    exact ⟨t, hai, mdpdf_some_not_heading hpd⟩

/-- Witness for C2: the pipeline at an AI answer `"# T"` (already a level-1
heading) returns the compressed path with an absent PDF, although every
external call succeeds. -/
theorem pdf_title_unbound_witness :
    (process_media
      ⟨⟨⟨Except.ok (), Except.ok (), Except.ok ()⟩,
        ⟨Except.ok "T", Except.ok (), ⟨Except.ok (), Except.ok (), Except.ok ()⟩⟩,
        ⟨Except.ok (200, []), ⟨Except.ok (), Except.ok (), Except.ok ()⟩⟩, 0⟩,
       ⟨Except.ok 5, Except.ok "f", Except.ok "# T"⟩, Except.ok (), none, none, none⟩
      [("in.mp4", [])] "in.mp4" "english" "analysis" "t1").pair =
      (some "/tmp/in.mp3", none) :=
  pdf_title_unbound.2.1 _ [("in.mp4", [])] "in.mp4" "english" "analysis" "t1"
    "/tmp/in.mp3" "# T" rfl rfl rfl (by decide) (by decide) (by decide) (by decide)

/-- C8: a `processing_mode` whose lowercasing is neither `"analysis"` nor
`"transcript"`, after a successful acquisition whose compressed file the AI
stage can read the duration of, makes `__aigc_processor` log the
`Invalid processing mode` error tagged with the task id and return `None`,
so `process_media` returns `(compressed, none)` and the message appears in
its log. -/
theorem invalid_mode_partial_result
    (env : PipeEnv) (fs : FS) (input lang mode tid c : String) (d : Nat)
    (hf1 : env.f1 = none) (hf2 : env.f2 = none)
    (ha : (media_processor env.media fs input tid).result = some c) (hc : c ≠ "")
    (hd : env.aigc.duration = Except.ok d)
    (hm1 : pyLower mode ≠ "analysis") (hm2 : pyLower mode ≠ "transcript") :
    (aigc_processor env.aigc c lang mode tid).result = none ∧
    invalidModeMsg tid mode ∈ (aigc_processor env.aigc c lang mode tid).logs ∧
    (process_media env fs input lang mode tid).pair = (some c, none) ∧
    invalidModeMsg tid mode ∈ (process_media env fs input lang mode tid).logs := by
  have hai : aigc_processor env.aigc c lang mode tid =
      { result := none, logs := [invalidModeMsg tid mode] } := by
    simp [aigc_processor, hd, hm1, hm2]
  refine ⟨by rw [hai], by rw [hai]; exact List.mem_singleton.mpr rfl, ?_, ?_⟩
  · simp [process_media, processMediaBody, hf1, hf2, ha, hc, hai]
  · simp [process_media, processMediaBody, hf1, hf2, ha, hc, hai, List.mem_append]

/-- Witness for C8 at the mode `"summary"` of the spec's example. -/
theorem invalid_mode_partial_result_witness :
    (process_media
      ⟨⟨⟨Except.ok (), Except.ok (), Except.ok ()⟩,
        ⟨Except.ok "T", Except.ok (), ⟨Except.ok (), Except.ok (), Except.ok ()⟩⟩,
        ⟨Except.ok (200, []), ⟨Except.ok (), Except.ok (), Except.ok ()⟩⟩, 0⟩,
       ⟨Except.ok 5, Except.ok "f", Except.ok "Hello"⟩, Except.ok (), none, none, none⟩
      [("in.mp4", [])] "in.mp4" "english" "summary" "t1").pair =
      (some "/tmp/in.mp3", none) :=
  (invalid_mode_partial_result _ [("in.mp4", [])] "in.mp4" "english" "summary" "t1"
    "/tmp/in.mp3" 5 rfl rfl (by decide) (by decide) rfl (by decide) (by decide)).2.2.1

end Citrailmu
